import Mathlib

/-
Verification of the optimistix iteration driver (`src/optimistix/_iterate.py`) and
root-finding entry point (`src/optimistix/_root_find.py`) against their
natural-language specification.

Shallow embedding conventions:
- JAX pytrees are modelled by `PTree`: leaves, pairs (tuples), and `empty`
  (Python `None`, which is an empty pytree container and also the placeholder
  that `equinox.partition`/`equinox.filter` leave behind).
- Array values use exact rationals so that the hardcoded `0.1` tolerance is exact.
- A Python exception (the driver's `assert`, modelled aborts) is `Option.none` /
  `Outcome.abort`; the raising performed by `RESULTS.error_if` is `Outcome.raised`.
- Machinery of the external collaborators (equinox / jax: `tree_map`, `partition`,
  `combine`, `filter`, `tree_equal`, the bounded `while_loop`) is modelled with its
  documented semantics.  Repository code that is not under `src/`
  (`_adjoint.py`, `_least_squares.py`, `_misc.py`) is modelled from the spec; the
  doc comment of each such definition says so explicitly.
-/

/-- Array dtypes, as far as the embedding needs to distinguish them. -/
inductive Dtype where
  | f32
  | f64
  | i32
  | i64
deriving DecidableEq

/-- A JAX array: a shape, a dtype and flat numeric data (exact rationals). -/
structure JArray where
  shape : List Nat
  dtype : Dtype
  data : List ℚ
deriving DecidableEq

/-- Pytree leaves: numeric arrays, `jax.ShapeDtypeStruct`s, jaxprs
(`jax.core.Jaxpr` / `ClosedJaxpr`, identified by a code), other static
(non-array) Python values, and `equinox.internal.Static` wrappers. -/
inductive JLeaf where
  | arr (a : JArray)
  | sds (shape : List Nat) (dtype : Dtype)
  | jaxpr (code : Nat)
  | static (v : Int)
  | staticBox (x : JLeaf)
deriving DecidableEq

/-- A JAX pytree over `JLeaf`: a leaf, a 2-tuple node, or `None`/empty. -/
inductive PTree where
  | leaf (a : JLeaf)
  | pair (l r : PTree)
  | empty
deriving DecidableEq

/-- `jax.tree_util.tree_map` for a leaf-to-leaf function: `None` (empty) nodes
have no leaves and pass through. -/
def PTree.map (f : JLeaf → JLeaf) : PTree → PTree
  | PTree.leaf a => PTree.leaf (f a)
  | PTree.pair l r => PTree.pair (PTree.map f l) (PTree.map f r)
  | PTree.empty => PTree.empty

/-- `equinox.filter(tree, pred)`: keep the leaves satisfying `pred`, replace the
others with `None`.  `equinox.filter(tree, pred, inverse=True)` is
`PTree.filter (fun a => not (pred a))`, and `equinox.partition(tree, pred)` is the
pair `(PTree.filter pred tree, PTree.filter (fun a => not (pred a)) tree)`. -/
def PTree.filter (p : JLeaf → Bool) : PTree → PTree
  | PTree.leaf a => if p a then PTree.leaf a else PTree.empty
  | PTree.pair l r => PTree.pair (PTree.filter p l) (PTree.filter p r)
  | PTree.empty => PTree.empty

/-- `equinox.combine` on two trees that partition one tree: at each position the
first non-`None` leaf wins. -/
def PTree.combine : PTree → PTree → PTree
  | PTree.empty, t => t
  | PTree.leaf a, _ => PTree.leaf a
  | PTree.pair l r, PTree.pair a b => PTree.pair (PTree.combine l a) (PTree.combine r b)
  | PTree.pair l r, _ => PTree.pair l r

/-- `equinox.is_array` on a leaf. -/
def is_array : JLeaf → Bool
  | JLeaf.arr _ => true
  | _ => false

/-- `_is_jaxpr` from `_iterate.py`: `isinstance(x, (jax.core.Jaxpr, jax.core.ClosedJaxpr))`. -/
def _is_jaxpr : JLeaf → Bool
  | JLeaf.jaxpr _ => true
  | _ => false

/-- `_is_array_or_jaxpr` from `_iterate.py`. -/
def _is_array_or_jaxpr (x : JLeaf) : Bool :=
  _is_jaxpr x || is_array x

/-- Unwrapping of one `equinox.internal.Static` wrapper
(`jtu.tree_map(lambda x: x.value, tree, is_leaf=static_leaf)` unwraps leafwise). -/
def unstatic : JLeaf → JLeaf
  | JLeaf.staticBox x => x
  | x => x

/-- The result-code enumeration (`optimistix._solution.RESULTS`), restricted to the
codes the spec names: success, budget exhaustion, two solver-failure categories and
the root-conversion failure. -/
inductive RESULTS where
  | successful
  | nonlinear_max_steps_reached
  | nonlinear_diverged
  | singular
  | nonlinear_root_conversion_failed
deriving DecidableEq

/-- `RESULTS.where(pred, a, b)`: `a` where `pred` holds, else `b`. (Named `where_`
because `where` is a Lean keyword.) -/
def RESULTS.where_ (b : Bool) (x y : RESULTS) : RESULTS :=
  if b then x else y

/-- The adjoint strategies of spec section 4.3. -/
inductive Adjoint where
  | implicit
  | recursive_checkpoint
deriving DecidableEq

/-- Solver `options` dictionaries, modelled as opaque key-value association lists. -/
abbrev Options := List (Nat × Int)

/-- Lineax structure `tags` (`frozenset[object]`), modelled as opaque identifiers. -/
abbrev Tags := List Nat

/-- A normalised objective function: `fn(y, args) -> (value, aux)`. -/
abbrev Fn := PTree → PTree → PTree × PTree

/-- A caller-supplied function before aux-normalisation (`MaybeAuxFn`): it returns a
single pytree; under `has_aux=True` that pytree is a `(value, aux)` 2-tuple. -/
abbrev RawFn := PTree → PTree → PTree

/-- The solver variants `root_find` dispatches on (`isinstance` tests in the source). -/
inductive SolverKind where
  | rootFinder
  | leastSquaresSolver
  | minimiser
deriving DecidableEq

/-- The abstract solver contract of `AbstractIterativeSolver` (`init`, `step`,
`terminate`, `buffers`), plus the variant tag used by `root_find`'s dispatch.
`step` returns the `(new_y, new_state, aux)` 3-tuple of the source. -/
structure Solver where
  kind : SolverKind
  init : Fn → PTree → PTree → Options → PTree → PTree → Tags → PTree
  step : Fn → PTree → PTree → Options → PTree → Tags → PTree × PTree × PTree
  terminate : Fn → PTree → PTree → Options → PTree → Tags → Bool × RESULTS
  buffers : PTree → List Nat

/-- The loop carry of `_iterate`: `(y, num_steps, dynamic_state, aux)`. -/
structure Carry where
  y : PTree
  num_steps : Nat
  dynamic_state : PTree
  aux : PTree
deriving DecidableEq

/-- The output of `_iterate`: `final_y, (num_steps, result, final_state, aux)`. -/
structure IterOut where
  final_y : PTree
  num_steps : Nat
  result : RESULTS
  final_state : PTree
  aux : PTree
deriving DecidableEq

/-- The `Solution` record.  The `stats` dict holds `num_steps` and `max_steps`. -/
structure Solution where
  value : PTree
  result : RESULTS
  state : PTree
  aux : PTree
  stats_num_steps : Nat
  stats_max_steps : Nat
deriving DecidableEq

/-- Outcome of an entry point: a returned `Solution`, a raise from
`RESULTS.error_if` (carrying the non-successful result), or a hard abort from the
driver's `assert`. -/
inductive Outcome where
  | ok (sol : Solution)
  | raised (r : RESULTS)
  | abort
deriving DecidableEq

/-- `result.error_if(sol, pred)`: raise (carrying `result`) when `pred` holds,
otherwise pass `sol` through. -/
def RESULTS.error_if (r : RESULTS) (sol : Solution) (pred : Bool) : Outcome :=
  if pred then Outcome.raised r else Outcome.ok sol

/-- The inputs tuple, packed by `iterative_solve` and unpacked by `_iterate` as
`fn, args, solver, y0, options, max_steps, f_struct, aux_struct, tags`.  The two
struct components are `Static`-wrapped (`staticBox`) trees. -/
abbrev Inputs := Fn × PTree × Solver × PTree × Option Options × Nat × PTree × PTree × Tags

/-- The rewrite-function interface: `(root, residual, inputs) -> residual value`. -/
abbrev RewriteFn := PTree → PTree → Inputs → PTree

/-- `_zero` from `_iterate.py`: a `ShapeDtypeStruct` leaf becomes
`jnp.zeros(x.shape, dtype=x.dtype)`; any other leaf passes through. -/
def _zero : JLeaf → JLeaf
  | JLeaf.sds shape dtype => JLeaf.arr ⟨shape, dtype, List.replicate shape.prod 0⟩
  | x => x

/-- Bounded while loop, modelling `equinox.internal.while_loop` (external
collaborator): run `body` while `cond` holds, for at most `max_steps` iterations.
`buffers` is the write-once buffer hint, a performance hint only (spec sections 3
and 9), so it is ignored.  `body` returning `none` models a Python exception
propagating out of the loop. -/
def while_loopN (cond : Carry → Bool) (body : Carry → Option Carry)
    (buffers : Carry → List Nat) : Nat → Carry → Option Carry
  | 0, c => some c
  | n + 1, c =>
    if cond c then (body c).bind (fun c2 => while_loopN cond body buffers n c2)
    else some c

/-- `cond_fun` from `_iterate`: recombine the state and keep looping while
`terminate` is false (`jnp.invert(terminate)`). -/
def cond_fun (solver : Solver) (fn : Fn) (args : PTree) (options : Options)
    (tags : Tags) (static_state : PTree) (c : Carry) : Bool :=
  let state := PTree.combine static_state c.dynamic_state
  ! (solver.terminate fn c.y args options state tags).1

/-- `body_fun` from `_iterate`: one accepted step.  `stepped` is the
`(new_y, new_state, aux)` tuple.  The final `if` is the source's
`assert eqx.tree_equal(static_state_no_jaxpr, new_static_state_no_jaxpr) is True`,
with `none` modelling the assertion abort. -/
def body_fun (solver : Solver) (fn : Fn) (args : PTree) (options : Options)
    (tags : Tags) (static_state : PTree) (c : Carry) : Option Carry :=
  let state := PTree.combine static_state c.dynamic_state
  let stepped := solver.step fn c.y args options state tags
  let new_y := stepped.1
  let new_state := stepped.2.1
  let aux := stepped.2.2
  let new_dynamic_state := PTree.filter is_array new_state
  let new_static_state := PTree.filter (fun a => ! is_array a) new_state
  let new_static_state_no_jaxpr := PTree.filter (fun a => ! _is_jaxpr a) new_static_state
  let static_state_no_jaxpr := PTree.filter (fun a => ! _is_array_or_jaxpr a) state
  if static_state_no_jaxpr = new_static_state_no_jaxpr then
    some ⟨new_y, c.num_steps + 1, new_dynamic_state, aux⟩
  else
    none

/-- `_iterate` from `_iterate.py`.  The structure mirrors the source line by line:
unwrap the `Static`-wrapped structs, default the options, zero-initialise the aux
slot, run `init`, partition the state into dynamic (array) and static parts, loop,
then re-run `terminate` once on the final carry and override a successful-but-not-
terminated code with `nonlinear_max_steps_reached`.  The returned state is the
dynamic part of the final carry, exactly as in the source. -/
def _iterate (inputs : Inputs) : Option IterOut :=
  let (fn, args, solver, y0, options, max_steps, f_structS, aux_structS, tags) := inputs
  let f_struct := PTree.map unstatic f_structS
  let aux_struct := PTree.map unstatic aux_structS
  let options := options.getD []
  let init_aux := PTree.map _zero aux_struct
  let init_state := solver.init fn y0 args options f_struct aux_struct tags
  let dynamic_init_state := PTree.filter is_array init_state
  let static_state := PTree.filter (fun a => ! is_array a) init_state
  let init_carry : Carry := ⟨y0, 0, dynamic_init_state, init_aux⟩
  match while_loopN (cond_fun solver fn args options tags static_state)
      (body_fun solver fn args options tags static_state)
      (fun c => solver.buffers c.dynamic_state) max_steps init_carry with
  | none => none
  | some final_carry =>
    let final_state := final_carry.dynamic_state
    let _final_state := PTree.combine static_state final_state
    let tr := solver.terminate fn final_carry.y args options _final_state tags
    let result := RESULTS.where_ ((tr.2 == RESULTS.successful) && ! tr.1)
        RESULTS.nonlinear_max_steps_reached tr.2
    some ⟨final_carry.y, final_carry.num_steps, result, final_state, final_carry.aux⟩

/-- Modelled from the spec: `AbstractAdjoint.apply` lives in `_adjoint.py`, which is
not under `src/`.  Per spec section 4.3 the adjoint strategy "returns the same
outputs as a direct call to the forward computation"; only differentiation (out of
scope for a value-level embedding) distinguishes the strategies, so `apply` runs the
forward `_iterate` (whose bounded while-loop is `while_loopN`) and ignores the
rewrite function and tags. -/
def adjoint_apply (adjoint : Adjoint) (rewrite_fn : RewriteFn) (inputs : Inputs)
    (tags : Tags) : Option IterOut :=
  _iterate inputs

/-- `iterative_solve` from `_iterate.py`: wrap the structs in `Static`, pack the
inputs tuple, run the solve through the adjoint, build the `Solution`, and raise
at the very end when `throw` is set and the result is not successful. -/
def iterative_solve (fn : Fn) (solver : Solver) (y0 : PTree) (args : PTree)
    (options : Option Options) (rewrite_fn : RewriteFn) (max_steps : Nat)
    (adjoint : Adjoint) (throw : Bool) (tags : Tags)
    (f_struct : PTree) (aux_struct : PTree) : Outcome :=
  let f_structS := PTree.map JLeaf.staticBox f_struct
  let aux_structS := PTree.map JLeaf.staticBox aux_struct
  let inputs : Inputs := (fn, args, solver, y0, options, max_steps, f_structS, aux_structS, tags)
  match adjoint_apply adjoint rewrite_fn inputs tags with
  | none => Outcome.abort
  | some o =>
    let sol : Solution := ⟨o.final_y, o.result, o.final_state, o.aux, o.num_steps, max_steps⟩
    if throw then RESULTS.error_if o.result sol (o.result != RESULTS.successful)
    else Outcome.ok sol

/-- Executable ordering on ℚ by cross-multiplied integer numerators (the field
operations of `Rat` do not reduce in the kernel); `qle_iff` below proves it agrees
with the mathematical order. -/
def qle (a b : ℚ) : Bool :=
  decide (a.num * (b.den : Int) ≤ b.num * (a.den : Int))

/-- Executable strict ordering on ℚ; `qlt_iff` below proves it agrees with `<`. -/
def qlt (a b : ℚ) : Bool :=
  decide (a.num * (b.den : Int) < b.num * (a.den : Int))

/-- Executable maximum on ℚ (agrees with `max` by `qmax_eq_max` below). -/
def qmax (a b : ℚ) : ℚ :=
  if qle a b then b else a

/-- Executable absolute value on ℚ (agrees with `|·|` by `qabs_eq_abs` below). -/
def qabs (a : ℚ) : ℚ :=
  if qle a 0 then -a else a

/-- Modelled from the spec: `max_norm` lives in `_misc.py`, which is not under
`src/`.  Spec section 4.4 calls for "a max-norm of the residual": the maximum
absolute value over all numeric array entries of the pytree (an empty tree has
norm 0; non-array leaves carry no numeric entries). -/
def leaf_norm : JLeaf → ℚ
  | JLeaf.arr a => a.data.foldl (fun m q => qmax m (qabs q)) 0
  | _ => 0

/-- Modelled from the spec: the max-norm of a whole pytree (see `leaf_norm`). -/
def max_norm : PTree → ℚ
  | PTree.leaf a => leaf_norm a
  | PTree.pair l r => qmax (max_norm l) (max_norm r)
  | PTree.empty => 0

/-- Modelled from the spec: `NoneAux` from `_misc.py` (not under `src/`): wrap a
function so it "always return[s] a (value, auxiliary) pair, synthesising an empty
auxiliary value" (spec section 4.4); the synthesised aux is Python `None`, i.e. the
empty pytree. -/
def NoneAux (f : RawFn) : Fn :=
  fun y args => (f y args, PTree.empty)

/-- Encoding helper: a caller whose function is declared `has_aux=True` returns a
`(value, aux)` 2-tuple; tuples are pytree pairs in this embedding, so such a
function is read back into the normalised `Fn` type componentwise.  (A non-pair
return under `has_aux=True` is a caller contract violation; it is read as a value
with empty aux.) -/
def withAuxFn (f : RawFn) : Fn :=
  fun y args =>
    match f y args with
    | PTree.pair v a => (v, a)
    | t => (t, PTree.empty)

/-- Modelled from the spec: shape/dtype capture of a function output "without
requiring an evaluation" (spec sections 4.1 and 6, supplied by the external
autodiff substrate via `eqx.filter_closure_convert(...).out_struct`).  Arrays are
abstracted to their `ShapeDtypeStruct`; non-array leaves pass through. -/
def struct_of : PTree → PTree :=
  PTree.map (fun x =>
    match x with
    | JLeaf.arr a => JLeaf.sds a.shape a.dtype
    | x => x)

/-- Modelled from the spec: the `(f_struct, aux_struct)` pair of a normalised
function (see `struct_of`). -/
def out_struct (fn : Fn) (y0 : PTree) (args : PTree) : PTree × PTree :=
  (struct_of (fn y0 args).1, struct_of (fn y0 args).2)

/-- Modelled from the spec: dtype promotion of `inexact_asarray` (see below). -/
def inexact_dtype : Dtype → Dtype
  | Dtype.i32 => Dtype.f32
  | Dtype.i64 => Dtype.f64
  | d => d

/-- Modelled from the spec: `inexact_asarray` from `_misc.py` (not under `src/`):
"coerce the initial guess to the solver's required numeric representation" (spec
section 4.4), i.e. to inexact (floating) arrays: integer arrays are promoted to
floating dtypes, bare Python scalars become 0-dimensional arrays. -/
def inexact_asarray : JLeaf → JLeaf
  | JLeaf.arr a => JLeaf.arr ⟨a.shape, inexact_dtype a.dtype, a.data⟩
  | JLeaf.static v => JLeaf.arr ⟨[], Dtype.f64, [(v : ℚ)]⟩
  | x => x

/-- Modelled from the spec: the rewrite function `_least_squares.py` supplies to the
driver; it only matters for differentiation (out of scope), so it is a placeholder. -/
def ls_rewrite_fn : RewriteFn :=
  fun _ _ _ => PTree.empty

/-- Modelled from the spec: `least_squares` lives in `_least_squares.py`, which is
not under `src/`.  Per spec sections 4.4 and 7 it normalises `fn` per `has_aux`
(`root_find` always delegates with `has_aux=True` and an already pair-returning
`fn`, which is then used as-is), captures the output structs, and delegates to the
shared iteration driver `iterative_solve` with the caller's `throw`; the driver
replaces a missing options value with the empty dict.  The solver's own algorithm
stays abstract inside the `solver` argument. -/
def least_squares (fn : Fn) (solver : Solver) (y0 : PTree) (args : PTree)
    (options : Option Options) (has_aux : Bool) (max_steps : Nat)
    (adjoint : Adjoint) (throw : Bool) : Outcome :=
  let fn := if has_aux then fn
    else fun y a => (PTree.pair (fn y a).1 (fn y a).2, PTree.empty)
  let f_struct := (out_struct fn y0 args).1
  let aux_struct := (out_struct fn y0 args).2
  iterative_solve fn solver y0 args options ls_rewrite_fn max_steps adjoint throw []
    f_struct aux_struct

/-- `_rewrite_fn` from `_root_find.py`, translated positionally: the source unpacks
`root_fn, _, _, args, *_ = inputs`, i.e. components 0 and 3 of the inputs tuple.
Under `_iterate.py`'s packing `(fn, args, solver, y0, options, ...)` component 3
holds `y0`, so the local name `args` of the source is bound to `y0` here. -/
def _rewrite_fn : RewriteFn :=
  fun root _residual inputs =>
    let root_fn := inputs.1
    let a := inputs.2.2.2.1
    (root_fn root a).1

/-- The root-conversion tolerance: the hardcoded `0.1` of `_root_find.py` line 128
("max norm with tolerance 0.1, hardcoded").  Written in constructor form so it
evaluates in the kernel; `root_conversion_tol_eq` below proves it equals `1 / 10`. -/
def root_conversion_tol : ℚ := ⟨1, 10, by norm_num, by norm_num⟩

/-- The post-delegation part of `root_find`'s minimiser/least-squares branch:
evaluate `fn` once more at the returned value (`f_val = fn(sol.value, args)`, the
whole `(value, aux)` tuple, reconstituted as a pytree pair for `max_norm`),
override a successful result whose norm exceeds the tolerance with
`nonlinear_root_conversion_failed`, write the result back into the solution
(`eqx.tree_at`), and only then raise if the caller asked for it. -/
def root_find_min_post (fn : Fn) (args : PTree) (throw : Bool) (ls_out : Outcome) :
    Outcome :=
  match ls_out with
  | Outcome.ok sol =>
    let f_val := fn sol.value args
    let did_not_find_root := qlt root_conversion_tol (max_norm (PTree.pair f_val.1 f_val.2))
    let result := RESULTS.where_ (did_not_find_root && (sol.result == RESULTS.successful))
        RESULTS.nonlinear_root_conversion_failed sol.result
    let sol := { sol with result := result }
    if throw then RESULTS.error_if sol.result sol (sol.result != RESULTS.successful)
    else Outcome.ok sol
  | x => x

/-- The minimiser/least-squares branch of `root_find`: `tags` has already been
discarded (`del tags`); delegate to `least_squares` with `has_aux=True` and
raising suppressed (`throw=False`), then run the post-delegation check. -/
def root_find_min_branch (fn : Fn) (solver : Solver) (y0 : PTree) (args : PTree)
    (options : Option Options) (max_steps : Nat) (adjoint : Adjoint) (throw : Bool) :
    Outcome :=
  root_find_min_post fn args throw
    (least_squares fn solver y0 args options true max_steps adjoint false)

/-- The genuine root-finder branch of `root_find`: coerce `y0` to inexact arrays,
capture the output structs (the source's `eqx.filter_closure_convert(fn, y0, args)`
also wraps `fn` in a semantics-preserving jaxpr closure, which a value-level
embedding need not represent), default the options, and call the driver with the
implicit-function-theorem rewrite `_rewrite_fn`. -/
def root_find_root_branch (fn : Fn) (solver : Solver) (y0 : PTree) (args : PTree)
    (options : Option Options) (max_steps : Nat) (adjoint : Adjoint) (throw : Bool)
    (tags : Tags) : Outcome :=
  let y0 := PTree.map inexact_asarray y0
  let f_struct := (out_struct fn y0 args).1
  let aux_struct := (out_struct fn y0 args).2
  let options := options.getD []
  iterative_solve fn solver y0 args (some options) _rewrite_fn max_steps adjoint throw
    tags f_struct aux_struct

/-- `root_find` from `_root_find.py`: normalise `fn` per `has_aux`
(`if not has_aux: fn = NoneAux(fn)`), then dispatch on the solver variant
(`isinstance(solver, (AbstractMinimiser, AbstractLeastSquaresSolver))`). -/
def root_find (fn0 : RawFn) (solver : Solver) (y0 : PTree) (args : PTree)
    (options : Option Options) (has_aux : Bool) (max_steps : Nat) (adjoint : Adjoint)
    (throw : Bool) (tags : Tags) : Outcome :=
  let fn : Fn := if has_aux then withAuxFn fn0 else NoneAux fn0
  match solver.kind with
  | SolverKind.minimiser =>
    root_find_min_branch fn solver y0 args options max_steps adjoint throw
  | SolverKind.leastSquaresSolver =>
    root_find_min_branch fn solver y0 args options max_steps adjoint throw
  | SolverKind.rootFinder =>
    root_find_root_branch fn solver y0 args options max_steps adjoint throw tags

/-- Declared default of `root_find`: `has_aux=False`. -/
def root_find_default_has_aux : Bool := false

/-- Declared default of `root_find`: `max_steps=256`. -/
def root_find_default_max_steps : Nat := 256

/-- Declared default of `root_find`: `adjoint=ImplicitAdjoint()`. -/
def root_find_default_adjoint : Adjoint := Adjoint.implicit

/-- Declared default of `root_find`: `throw=True`. -/
def root_find_default_throw : Bool := true

/-- Declared default of `root_find`: `tags=frozenset()`. -/
def root_find_default_tags : Tags := []

/-- `root_find` invoked with only its positional arguments, i.e. with every
keyword-only argument at its declared default. -/
def root_find_with_defaults (fn0 : RawFn) (solver : Solver) (y0 : PTree)
    (args : PTree) (options : Option Options) : Outcome :=
  root_find fn0 solver y0 args options root_find_default_has_aux
    root_find_default_max_steps root_find_default_adjoint root_find_default_throw
    root_find_default_tags

/-- Stated from the words of claim C1 (for comparison with the source-side
`RESULTS.where_` expression in `_iterate`): the final code equals
`max_steps_reached` exactly when the post-loop `terminate` returned code
`successful` with `should_stop` false, and equals the post-loop code unchanged in
every other case. -/
def spec_final_result (should_stop : Bool) (code : RESULTS) : RESULTS :=
  if code = RESULTS.successful ∧ should_stop = false then
    RESULTS.nonlinear_max_steps_reached
  else code

/-- Stated from the words of claim C5: the relation between the `throw=False` and
`throw=True` outcomes of one entry point.  With raising enabled the call raises
exactly when the final result code is not `successful` and returns the very same
solution otherwise; anything other than a clean return (an inner abort) propagates
unchanged. -/
def throw_relation (no_throw : Outcome) (with_throw : Outcome) : Prop :=
  match no_throw with
  | Outcome.ok sol =>
    with_throw =
      if sol.result = RESULTS.successful then Outcome.ok sol
      else Outcome.raised sol.result
  | x => with_throw = x

/-- A scalar zero array. -/
def arr0 : JArray := ⟨[], Dtype.f64, [0]⟩

/-- A scalar one array. -/
def arr1 : JArray := ⟨[], Dtype.f64, [1]⟩

/-- A concrete initial guess: the scalar 0. -/
def cy0 : PTree := PTree.leaf (JLeaf.arr arr0)

/-- Concrete args: the scalar 1. -/
def cargs : PTree := PTree.leaf (JLeaf.arr arr1)

/-- A concrete normalised function with zero residual and empty aux. -/
def cFn : Fn := fun _ _ => (PTree.leaf (JLeaf.arr arr0), PTree.empty)

/-- A concrete raw (un-normalised) function with zero residual. -/
def czero : RawFn := fun _ _ => PTree.leaf (JLeaf.arr arr0)

/-- A concrete raw function for `has_aux=True`: residual 0, auxiliary output 1
(a perfect root whose aux is numerically large compared to the 0.1 tolerance). -/
def craw2 : RawFn := fun _ _ =>
  PTree.pair (PTree.leaf (JLeaf.arr arr0)) (PTree.leaf (JLeaf.arr arr1))

/-- A concrete raw function that returns its `args` argument (value sensitive to
`args`, used against `_rewrite_fn`). -/
def cident : Fn := fun _ a => (a, PTree.empty)

/-- A concrete root-finder solver with a purely static state that terminates
successfully at once. -/
def cSolver : Solver where
  kind := SolverKind.rootFinder
  init := fun _ _ _ _ _ _ _ => PTree.leaf (JLeaf.static 7)
  step := fun _ y _ _ st _ => (y, st, PTree.empty)
  terminate := fun _ _ _ _ _ _ => (true, RESULTS.successful)
  buffers := fun _ => []

/-- The same trivial solver marked as a minimiser (for the dispatch claims). -/
def cMinSolver : Solver where
  kind := SolverKind.minimiser
  init := fun _ _ _ _ _ _ _ => PTree.leaf (JLeaf.static 7)
  step := fun _ y _ _ st _ => (y, st, PTree.empty)
  terminate := fun _ _ _ _ _ _ => (true, RESULTS.successful)
  buffers := fun _ => []

/-- A solver whose state is a single jaxpr leaf and whose `step` swaps that jaxpr
for a different one: its static (non-array) state changes on every step, but only
in a jaxpr leaf. -/
def cJaxprSolver : Solver where
  kind := SolverKind.rootFinder
  init := fun _ _ _ _ _ _ _ => PTree.leaf (JLeaf.jaxpr 0)
  step := fun _ y _ _ _ _ => (y, PTree.leaf (JLeaf.jaxpr 1), PTree.empty)
  terminate := fun _ _ _ _ _ _ => (false, RESULTS.successful)
  buffers := fun _ => []

lemma qle_iff (a b : ℚ) : qle a b = true ↔ a ≤ b := by
  rw [qle, Rat.le_def]
  simp

lemma qlt_iff (a b : ℚ) : qlt a b = true ↔ a < b := by
  rw [qlt, Rat.lt_def]
  simp

lemma qmax_eq_max (a b : ℚ) : qmax a b = max a b := by
  rw [qmax]
  by_cases h : a ≤ b
  · rw [if_pos ((qle_iff a b).mpr h), max_eq_right h]
  · rw [if_neg (by simp [qle_iff, h]), max_eq_left (le_of_not_le h)]

lemma qabs_eq_abs (a : ℚ) : qabs a = |a| := by
  rw [qabs]
  by_cases h : a ≤ 0
  · rw [if_pos ((qle_iff a 0).mpr h), abs_of_nonpos h]
  · rw [if_neg (by simp [qle_iff, h]), abs_of_pos (lt_of_not_le h)]

lemma root_conversion_tol_eq : root_conversion_tol = 1 / 10 := by
  rw [root_conversion_tol, Rat.mk'_eq_divInt, Rat.divInt_eq_div]
  norm_num

lemma PTree.combine_filter (p : JLeaf → Bool) (t : PTree) :
    PTree.combine (PTree.filter (fun a => ! p a) t) (PTree.filter p t) = t := by
  induction t with
  | leaf a => by_cases hp : p a <;> simp [PTree.filter, PTree.combine, hp]
  | pair l r ihl ihr => simp [PTree.filter, PTree.combine, ihl, ihr]
  | empty => rfl

lemma while_loopN_cond_false {cond : Carry → Bool} {body : Carry → Option Carry}
    {buffers : Carry → List Nat} {n : Nat} {c : Carry} (h : cond c = false) :
    while_loopN cond body buffers n c = some c := by
  cases n with
  | zero => rfl
  | succ k => rw [while_loopN, h]; simp

lemma body_fun_num_steps {solver : Solver} {fn : Fn} {args : PTree}
    {options : Options} {tags : Tags} {static_state : PTree} {c c2 : Carry}
    (h : body_fun solver fn args options tags static_state c = some c2) :
    c2.num_steps = c.num_steps + 1 := by
  unfold body_fun at h
  dsimp only at h
  split at h
  · cases h
    rfl
  · cases h

lemma while_loopN_num_le {cond : Carry → Bool} {body : Carry → Option Carry}
    {buffers : Carry → List Nat}
    (hb : ∀ x y, body x = some y → y.num_steps = x.num_steps + 1) :
    ∀ (n : Nat) (c c2 : Carry), while_loopN cond body buffers n c = some c2 →
      c2.num_steps ≤ c.num_steps + n := by
  intro n
  induction n with
  | zero =>
    intro c c2 h
    cases h
    exact Nat.le_refl _
  | succ k ih =>
    intro c c2 h
    by_cases hc : cond c = true
    · simp only [while_loopN, hc, if_true] at h
      cases hd : body c with
      | none => rw [hd] at h; cases h
      | some d =>
        rw [hd] at h
        simp only [Option.bind] at h
        have := ih d c2 h
        have hdnum := hb c d hd
        omega
    · rw [while_loopN_cond_false (Bool.eq_false_iff.mpr hc)] at h
      cases h
      omega

/-- Claim C1: after the loop exits (by termination or budget exhaustion), the
driver re-runs `terminate` once on the final carry; the returned result code
equals `nonlinear_max_steps_reached` exactly when that post-loop `terminate`
returns code `successful` with `should_stop` false, and equals the post-loop
code unchanged in every other case (a non-successful code is never overridden). -/
theorem C1_post_terminate_result (fn : Fn) (args : PTree) (solver : Solver)
    (y0 : PTree) (options : Option Options) (max_steps : Nat)
    (f_structS aux_structS : PTree) (tags : Tags) (out : IterOut)
    (h : _iterate (fn, args, solver, y0, options, max_steps, f_structS, aux_structS, tags)
      = some out) :
    out.result =
      spec_final_result
        (solver.terminate fn out.final_y args (options.getD [])
          (PTree.combine
            (PTree.filter (fun a => ! is_array a)
              (solver.init fn y0 args (options.getD []) (PTree.map unstatic f_structS)
                (PTree.map unstatic aux_structS) tags))
            out.final_state) tags).1
        (solver.terminate fn out.final_y args (options.getD [])
          (PTree.combine
            (PTree.filter (fun a => ! is_array a)
              (solver.init fn y0 args (options.getD []) (PTree.map unstatic f_structS)
                (PTree.map unstatic aux_structS) tags))
            out.final_state) tags).2 := by
  unfold _iterate at h
  dsimp only at h
  split at h
  · cases h
  · rename_i fc heq
    cases h
    dsimp only
    generalize solver.terminate fn fc.y args (options.getD [])
      (PTree.combine
        (PTree.filter (fun a => ! is_array a)
          (solver.init fn y0 args (options.getD []) (PTree.map unstatic f_structS)
            (PTree.map unstatic aux_structS) tags))
        fc.dynamic_state) tags = tr
    obtain ⟨stop, code⟩ := tr
    cases stop <;> cases code <;> simp [RESULTS.where_, spec_final_result]

/-- Witness for C1: a concrete solve (trivial root-finder, immediate successful
termination) satisfying the hypothesis, with the conclusion instantiated there. -/
theorem C1_post_terminate_result_witness :
    _iterate (cFn, cargs, cSolver, cy0, none, 5, PTree.empty, PTree.empty, [])
      = some ⟨cy0, 0, RESULTS.successful, PTree.empty, PTree.empty⟩
    ∧ (⟨cy0, 0, RESULTS.successful, PTree.empty, PTree.empty⟩ : IterOut).result
      = spec_final_result
          (cSolver.terminate cFn cy0 cargs ((none : Option Options).getD [])
            (PTree.combine
              (PTree.filter (fun a => ! is_array a)
                (cSolver.init cFn cy0 cargs ((none : Option Options).getD [])
                  (PTree.map unstatic PTree.empty) (PTree.map unstatic PTree.empty) []))
              PTree.empty) []).1
          (cSolver.terminate cFn cy0 cargs ((none : Option Options).getD [])
            (PTree.combine
              (PTree.filter (fun a => ! is_array a)
                (cSolver.init cFn cy0 cargs ((none : Option Options).getD [])
                  (PTree.map unstatic PTree.empty) (PTree.map unstatic PTree.empty) []))
              PTree.empty) []).2 :=
  ⟨rfl, C1_post_terminate_result cFn cargs cSolver cy0 none 5 PTree.empty PTree.empty []
    ⟨cy0, 0, RESULTS.successful, PTree.empty, PTree.empty⟩ rfl⟩

/-- Claim C3: the step counter starts at 0 and increments by exactly one per
accepted step, `terminate` is checked before each step (so immediate termination
on the initial guess yields `num_steps = 0`), `num_steps ≤ max_steps` always, and
a `successful` result means `terminate` genuinely fired on the final iterate
(never inferred purely from budget exhaustion). -/
theorem C3_step_counter_budget (fn : Fn) (args : PTree) (solver : Solver)
    (y0 : PTree) (options : Option Options) (max_steps : Nat)
    (f_structS aux_structS : PTree) (tags : Tags) (out : IterOut)
    (h : _iterate (fn, args, solver, y0, options, max_steps, f_structS, aux_structS, tags)
      = some out) :
    out.num_steps ≤ max_steps
    ∧ (∀ static_state c c2,
        body_fun solver fn args (options.getD []) tags static_state c = some c2 →
        c2.num_steps = c.num_steps + 1)
    ∧ ((solver.terminate fn y0 args (options.getD [])
          (solver.init fn y0 args (options.getD []) (PTree.map unstatic f_structS)
            (PTree.map unstatic aux_structS) tags) tags).1 = true →
        out.num_steps = 0)
    ∧ (out.result = RESULTS.successful →
        (solver.terminate fn out.final_y args (options.getD [])
          (PTree.combine
            (PTree.filter (fun a => ! is_array a)
              (solver.init fn y0 args (options.getD []) (PTree.map unstatic f_structS)
                (PTree.map unstatic aux_structS) tags))
            out.final_state) tags).1 = true) := by
  unfold _iterate at h
  dsimp only at h
  generalize hS : solver.init fn y0 args (options.getD []) (PTree.map unstatic f_structS)
      (PTree.map unstatic aux_structS) tags = S at h ⊢
  split at h
  · cases h
  · rename_i fc heq
    cases h
    refine ⟨?_, ?_, ?_, ?_⟩
    · have := while_loopN_num_le (fun x y hxy => body_fun_num_steps hxy) max_steps _ _ heq
      simpa using this
    · intro static_state c c2 hb
      exact body_fun_num_steps hb
    · intro hterm
      have hcond : cond_fun solver fn args (options.getD []) tags
          (PTree.filter (fun a => ! is_array a) S)
          ⟨y0, 0, PTree.filter is_array S,
            PTree.map _zero (PTree.map unstatic aux_structS)⟩ = false := by
        unfold cond_fun
        dsimp only
        rw [PTree.combine_filter is_array S, hterm]
        rfl
      rw [while_loopN_cond_false hcond] at heq
      cases heq
      rfl
    · dsimp only
      generalize solver.terminate fn fc.y args (options.getD [])
          (PTree.combine (PTree.filter (fun a => ! is_array a) S) fc.dynamic_state) tags = tr
      obtain ⟨stop, code⟩ := tr
      cases stop <;> cases code <;> decide

/-- Witness for C3: the concrete solve of the C1 witness, with the budget bound and
the immediate-termination case instantiated. -/
theorem C3_step_counter_budget_witness :
    _iterate (cFn, cargs, cSolver, cy0, none, 5, PTree.empty, PTree.empty, [])
      = some ⟨cy0, 0, RESULTS.successful, PTree.empty, PTree.empty⟩
    ∧ (⟨cy0, 0, RESULTS.successful, PTree.empty, PTree.empty⟩ : IterOut).num_steps ≤ 5
    ∧ (⟨cy0, 0, RESULTS.successful, PTree.empty, PTree.empty⟩ : IterOut).num_steps = 0 :=
  ⟨rfl,
    (C3_step_counter_budget cFn cargs cSolver cy0 none 5 PTree.empty PTree.empty []
      ⟨cy0, 0, RESULTS.successful, PTree.empty, PTree.empty⟩ rfl).1,
    (C3_step_counter_budget cFn cargs cSolver cy0 none 5 PTree.empty PTree.empty []
      ⟨cy0, 0, RESULTS.successful, PTree.empty, PTree.empty⟩ rfl).2.2.1 (by decide)⟩

/-- Claim C4 (amended): a step is accepted by the driver exactly when the
non-array, non-jaxpr part of the state stepped from coincides with the non-array,
non-jaxpr part of the state produced by `step` (the source's assertion compares
`eqx.filter(state, _is_array_or_jaxpr, inverse=True)` against
`eqx.filter(new_static_state, _is_jaxpr, inverse=True)`); otherwise the driver
aborts via the assertion.  Jaxpr-valued static leaves are exempt from the check —
see the counterexample `C4_jaxpr_leaf_counterexample` for why the claim's blanket
"non-array part" wording fails. -/
theorem C4_static_nonjaxpr_invariant (solver : Solver) (fn : Fn) (args : PTree)
    (options : Options) (tags : Tags) (static_state : PTree) (c : Carry) :
    (body_fun solver fn args options tags static_state c).isSome = true
    ↔ PTree.filter (fun a => ! _is_array_or_jaxpr a)
        (PTree.combine static_state c.dynamic_state)
      = PTree.filter (fun a => ! _is_jaxpr a)
          (PTree.filter (fun a => ! is_array a)
            ((solver.step fn c.y args options
              (PTree.combine static_state c.dynamic_state) tags).2.1)) := by
  unfold body_fun
  dsimp only
  split
  · rename_i hcond
    simp [hcond]
  · rename_i hcond
    simp [hcond]

/-- Counterexample to C4 as stated: a solver whose `step` replaces a jaxpr leaf of
the state (part of the non-array, static state) is accepted without any abort,
even though the non-array part of the state after the step differs from the
non-array part of the state stepped from. -/
theorem C4_jaxpr_leaf_counterexample :
    (body_fun cJaxprSolver cFn cargs [] [] (PTree.leaf (JLeaf.jaxpr 0))
        ⟨cy0, 0, PTree.empty, PTree.empty⟩).isSome = true
    ∧ PTree.filter (fun a => ! is_array a)
        (PTree.combine (PTree.leaf (JLeaf.jaxpr 0)) PTree.empty)
      ≠ PTree.filter (fun a => ! is_array a)
          ((cJaxprSolver.step cFn cy0 cargs []
            (PTree.combine (PTree.leaf (JLeaf.jaxpr 0)) PTree.empty) []).2.1) := by
  decide

lemma iterative_solve_throw_relation (fn : Fn) (solver : Solver) (y0 args : PTree)
    (options : Option Options) (rw : RewriteFn) (ms : Nat) (adj : Adjoint)
    (tags : Tags) (fs as : PTree) :
    throw_relation (iterative_solve fn solver y0 args options rw ms adj false tags fs as)
      (iterative_solve fn solver y0 args options rw ms adj true tags fs as) := by
  unfold iterative_solve adjoint_apply
  dsimp only
  cases h : _iterate (fn, args, solver, y0, options, ms, PTree.map JLeaf.staticBox fs,
      PTree.map JLeaf.staticBox as, tags) with
  | none => simp [throw_relation]
  | some o =>
    dsimp only
    by_cases hr : o.result = RESULTS.successful
    · simp [throw_relation, RESULTS.error_if, hr]
    · simp [throw_relation, RESULTS.error_if, hr]

lemma min_post_throw_relation (fn : Fn) (args : PTree) (ls_out : Outcome) :
    throw_relation (root_find_min_post fn args false ls_out)
      (root_find_min_post fn args true ls_out) := by
  unfold root_find_min_post
  cases ls_out with
  | ok sol =>
    dsimp only
    by_cases hR : RESULTS.where_
        ((qlt root_conversion_tol
            (max_norm (PTree.pair (fn sol.value args).1 (fn sol.value args).2)))
          && (sol.result == RESULTS.successful))
        RESULTS.nonlinear_root_conversion_failed sol.result = RESULTS.successful
    · simp [throw_relation, RESULTS.error_if, hR]
    · simp [throw_relation, RESULTS.error_if, hR]
  | raised r => simp [throw_relation]
  | abort => simp [throw_relation]

lemma root_find_throw_relation (fn0 : RawFn) (solver : Solver) (y0 args : PTree)
    (options : Option Options) (ha : Bool) (ms : Nat) (adj : Adjoint) (tags : Tags) :
    throw_relation (root_find fn0 solver y0 args options ha ms adj false tags)
      (root_find fn0 solver y0 args options ha ms adj true tags) := by
  unfold root_find
  dsimp only
  cases hk : solver.kind with
  | rootFinder =>
    unfold root_find_root_branch
    dsimp only
    exact iterative_solve_throw_relation _ _ _ _ _ _ _ _ _ _ _
  | leastSquaresSolver =>
    unfold root_find_min_branch
    exact min_post_throw_relation _ _ _
  | minimiser =>
    unfold root_find_min_branch
    exact min_post_throw_relation _ _ _

/-- Claim C5: with `throw=True`, `iterative_solve` and `root_find` raise exactly
when the final result code is not `successful`, the raise being evaluated once,
after the solve fully completes (captured by `throw_relation`: the raising variant
is a pure function of the completed no-raise outcome); with `throw=False` no raise
occurs and the returned Solution's `value`, `state` and `aux` are the final carry
produced by the loop even when the result code is a failure. -/
theorem C5_throw_raise_semantics (fn : Fn) (solver : Solver) (y0 args : PTree)
    (options : Option Options) (rw : RewriteFn) (ms : Nat) (adj : Adjoint)
    (tags : Tags) (fs as : PTree) (out : IterOut)
    (fn0 : RawFn) (solver2 : Solver) (y02 args2 : PTree) (options2 : Option Options)
    (ha : Bool) (ms2 : Nat) (adj2 : Adjoint) (tags2 : Tags)
    (h : _iterate (fn, args, solver, y0, options, ms, PTree.map JLeaf.staticBox fs,
      PTree.map JLeaf.staticBox as, tags) = some out) :
    iterative_solve fn solver y0 args options rw ms adj false tags fs as
      = Outcome.ok ⟨out.final_y, out.result, out.final_state, out.aux, out.num_steps, ms⟩
    ∧ throw_relation
        (iterative_solve fn solver y0 args options rw ms adj false tags fs as)
        (iterative_solve fn solver y0 args options rw ms adj true tags fs as)
    ∧ throw_relation
        (root_find fn0 solver2 y02 args2 options2 ha ms2 adj2 false tags2)
        (root_find fn0 solver2 y02 args2 options2 ha ms2 adj2 true tags2) := by
  refine ⟨?_, iterative_solve_throw_relation _ _ _ _ _ _ _ _ _ _ _,
    root_find_throw_relation _ _ _ _ _ _ _ _ _⟩
  unfold iterative_solve adjoint_apply
  dsimp only
  rw [h]
  rfl

/-- Witness for C5: the concrete trivial solve, with `throw=False` returning the
final carry and both throw relations instantiated. -/
theorem C5_throw_raise_semantics_witness :
    iterative_solve cFn cSolver cy0 cargs none ls_rewrite_fn 5 Adjoint.implicit false []
        PTree.empty PTree.empty
      = Outcome.ok ⟨cy0, RESULTS.successful, PTree.empty, PTree.empty, 0, 5⟩
    ∧ throw_relation
        (iterative_solve cFn cSolver cy0 cargs none ls_rewrite_fn 5 Adjoint.implicit
          false [] PTree.empty PTree.empty)
        (iterative_solve cFn cSolver cy0 cargs none ls_rewrite_fn 5 Adjoint.implicit
          true [] PTree.empty PTree.empty)
    ∧ throw_relation
        (root_find czero cMinSolver cy0 cargs none false 256 Adjoint.implicit false [])
        (root_find czero cMinSolver cy0 cargs none false 256 Adjoint.implicit true []) :=
  C5_throw_raise_semantics cFn cSolver cy0 cargs none ls_rewrite_fn 5 Adjoint.implicit
    [] PTree.empty PTree.empty ⟨cy0, 0, RESULTS.successful, PTree.empty, PTree.empty⟩
    czero cMinSolver cy0 cargs none false 256 Adjoint.implicit [] rfl

/-- Claim C6: the auxiliary slot of the carry is initialised from the aux
shape/dtype metadata by `_zero`: every `ShapeDtypeStruct` leaf becomes a
zero-filled array of that shape and dtype, every other leaf passes through
unchanged; and in any run that executes no step (here: budget 0) the driver's
returned aux is exactly `tree_map(_zero, aux_struct)` on the unwrapped metadata. -/
theorem C6_zero_initialised_aux :
    (∀ s d, _zero (JLeaf.sds s d) = JLeaf.arr ⟨s, d, List.replicate s.prod 0⟩)
    ∧ (∀ a, _zero (JLeaf.arr a) = JLeaf.arr a)
    ∧ (∀ n, _zero (JLeaf.jaxpr n) = JLeaf.jaxpr n)
    ∧ (∀ v, _zero (JLeaf.static v) = JLeaf.static v)
    ∧ (∀ x, _zero (JLeaf.staticBox x) = JLeaf.staticBox x)
    ∧ (∀ (fn : Fn) (args : PTree) (solver : Solver) (y0 : PTree)
        (options : Option Options) (fsS asS : PTree) (tags : Tags),
        ∃ fy res fst, _iterate (fn, args, solver, y0, options, 0, fsS, asS, tags)
          = some ⟨fy, 0, res, fst, PTree.map _zero (PTree.map unstatic asS)⟩) :=
  ⟨fun _ _ => rfl, fun _ => rfl, fun _ => rfl, fun _ => rfl, fun _ => rfl,
    fun _ _ _ _ _ _ _ _ => ⟨_, _, _, rfl⟩⟩

/-- Claim C7 is violated by the code: `_rewrite_fn` unpacks
`root_fn, _, _, args, *_ = inputs`, but `_iterate.py` packs the tuple as
`(fn, args, solver, y0, ...)`, so slot 3 holds `y0`, not `args`: on an
args-sensitive function the rewrite function returns the value component of
`fn(root, y0)`, which differs from the claimed `fn(root, args)`. -/
theorem C7_rewrite_fn_reads_y0_slot :
    _rewrite_fn cy0 PTree.empty
        (cident, cargs, cSolver, cy0, none, 256, PTree.empty, PTree.empty, [])
      = (cident cy0 cy0).1
    ∧ (cident cy0 cy0).1 ≠ (cident cy0 cargs).1 :=
  ⟨rfl, by decide⟩

/-- Claim C2 is violated by the code: `root_find` computes
`max_norm(f_val)` where `f_val = fn(sol.value, args)` is the whole
`(value, aux)` tuple (the unpacking `f_val, _ = ...` is missing), so with
`has_aux=True` a perfect root (residual norm 0) whose auxiliary output has norm 1
gets its `successful` code overridden to `nonlinear_root_conversion_failed`,
while the claim (norm of the residual only) would keep `successful`. -/
theorem C2_aux_contaminates_residual_norm :
    root_find craw2 cMinSolver cy0 cargs none true 256 Adjoint.implicit false []
      = Outcome.ok ⟨cy0, RESULTS.nonlinear_root_conversion_failed, PTree.empty,
          PTree.leaf (JLeaf.arr arr0), 0, 256⟩
    ∧ max_norm (withAuxFn craw2 cy0 cargs).1 = 0 := by
  constructor
  · decide
  · decide

/-- Claim C8: the declared contractual defaults of `root_find`
(`has_aux=False`, `max_steps=256`, implicit-function-theorem adjoint,
`throw=True`, empty tags), the fixed `0.1` root-conversion tolerance, the
normalisation of `fn` to a pair-returning function with a synthesised empty aux
when `has_aux=False`, and the delegated least-squares call always being made with
`has_aux=True` (and raising suppressed). -/
theorem C8_defaults_and_aux_normalisation :
    root_find_default_has_aux = false
    ∧ root_find_default_max_steps = 256
    ∧ root_find_default_adjoint = Adjoint.implicit
    ∧ root_find_default_throw = true
    ∧ root_find_default_tags = []
    ∧ root_conversion_tol = 1 / 10
    ∧ (∀ (f0 : RawFn) (s : Solver) (y0 a : PTree) (o : Option Options),
        root_find_with_defaults f0 s y0 a o
          = root_find f0 s y0 a o false 256 Adjoint.implicit true [])
    ∧ (∀ (f0 : RawFn) (y a : PTree), NoneAux f0 y a = (f0 y a, PTree.empty))
    ∧ (∀ (f0 : RawFn) (s : Solver) (y0 a : PTree) (o : Option Options) (ms : Nat)
        (adj : Adjoint) (thr : Bool) (tags : Tags),
        s.kind = SolverKind.minimiser ∨ s.kind = SolverKind.leastSquaresSolver →
        root_find f0 s y0 a o false ms adj thr tags
          = root_find_min_post (NoneAux f0) a thr
              (least_squares (NoneAux f0) s y0 a o true ms adj false)) := by
  refine ⟨rfl, rfl, rfl, rfl, rfl, root_conversion_tol_eq, fun _ _ _ _ _ => rfl,
    fun _ _ _ => rfl, ?_⟩
  intro f0 s y0 a o ms adj thr tags hk
  unfold root_find
  cases hk with
  | inl hk => rw [hk]; rfl
  | inr hk => rw [hk]; rfl

/-- Witness for C8: the hypothesis-bearing conjunct (minimiser dispatch delegates
to `least_squares` with `has_aux=True` and raising suppressed) instantiated at a
concrete minimiser. -/
theorem C8_defaults_and_aux_normalisation_witness :
    root_find czero cMinSolver cy0 cargs none false 256 Adjoint.implicit false []
      = root_find_min_post (NoneAux czero) cargs false
          (least_squares (NoneAux czero) cMinSolver cy0 cargs none true 256
            Adjoint.implicit false) :=
  C8_defaults_and_aux_normalisation.2.2.2.2.2.2.2.2 czero cMinSolver cy0 cargs none 256
    Adjoint.implicit false [] (Or.inl rfl)

/-- Claim C9: when the solver is a minimiser or least-squares solver, `tags` has
no effect on `root_find`'s output (the dispatch discards it before delegating). -/
theorem C9_tags_ignored_for_minimisers (fn0 : RawFn) (solver : Solver)
    (y0 args : PTree) (options : Option Options) (ha : Bool) (ms : Nat)
    (adj : Adjoint) (thr : Bool) (tags1 tags2 : Tags)
    (h : solver.kind = SolverKind.minimiser
      ∨ solver.kind = SolverKind.leastSquaresSolver) :
    root_find fn0 solver y0 args options ha ms adj thr tags1
      = root_find fn0 solver y0 args options ha ms adj thr tags2 := by
  unfold root_find
  cases h with
  | inl hk => rw [hk]
  | inr hk => rw [hk]

/-- Witness for C9: two concrete calls differing only in `tags`. -/
theorem C9_tags_ignored_for_minimisers_witness :
    root_find czero cMinSolver cy0 cargs none false 256 Adjoint.implicit false [3]
      = root_find czero cMinSolver cy0 cargs none false 256 Adjoint.implicit false [4] :=
  C9_tags_ignored_for_minimisers czero cMinSolver cy0 cargs none false 256
    Adjoint.implicit false [3] [4] (Or.inl rfl)

/-- Claim C10: passing `options=None` to the driver or to `root_find` is
equivalent to passing an empty options dictionary. -/
theorem C10_options_none_is_empty_dict (fn : Fn) (args : PTree) (solver : Solver)
    (y0 : PTree) (ms : Nat) (fsS asS : PTree) (tags : Tags)
    (fn0 : RawFn) (ha : Bool) (adj : Adjoint) (thr : Bool) :
    _iterate (fn, args, solver, y0, none, ms, fsS, asS, tags)
      = _iterate (fn, args, solver, y0, some [], ms, fsS, asS, tags)
    ∧ root_find fn0 solver y0 args none ha ms adj thr tags
      = root_find fn0 solver y0 args (some []) ha ms adj thr tags := by
  constructor
  · rfl
  · unfold root_find
    cases hk : solver.kind
    all_goals rfl
